import Mathlib

set_option maxHeartbeats 1000000

namespace OdinIri

/-! Shallow embedding of the IRI parser of `iri.go` (package `odin_iri`).

The Go parser decodes the input string into a `[]rune` but stores
`length = len(value)` (a BYTE count) and indexes the rune slice with
bounds checked against that byte count, so Go runtime panics
(index out of range) are reachable; they are modelled by `Res.panik`.
Go `for` loops are modelled with an explicit fuel argument; running out
of fuel is `Res.fuel`, and a loop that never terminates yields
`Res.fuel` for every fuel value. -/

/-- A parsed IRI: the raw value and its components, as code-point sequences.
Mirrors the Go struct `IRI`. -/
structure IRI where
  value : List Nat
  scheme : List Nat
  authority : List Nat
  path : List Nat
  query : List Nat
  fragment : List Nat
deriving DecidableEq, Repr

/-- The Go error values: the sentinel `EOIError`, the distinct error created by
`peek` (`errors.New("end of rune set reached")`), and `IriError` with its
index, offending code point and message. -/
inductive Err where
  | eoi : Err
  | peekEnd : Err
  | iriErr : Nat → Nat → String → Err
deriving DecidableEq, Repr

/-- The immutable part of the Go parser: the decoded code points (`p.runes`)
and `p.length`, which `newParser` sets to `len(value)` in bytes. -/
structure Ctx where
  runes : List Nat
  length : Nat
deriving DecidableEq, Repr

/-- The mutable parser state: the cursor `p.index` and the component fields of
`p.instance`. Within `parse` the index is always nonnegative (the initial
`next()` from the -1 sentinel always succeeds), so it is a `Nat` here. -/
structure St where
  index : Nat
  scheme : List Nat
  authority : List Nat
  path : List Nat
  query : List Nat
  fragment : List Nat
deriving DecidableEq, Repr

/-- Outcome of a parser computation: a value with the updated state, a Go
runtime panic (rune-slice index out of range), or fuel exhaustion. -/
inductive Res (α : Type) where
  | ok : α → St → Res α
  | panik : Res α
  | fuel : Res α
deriving DecidableEq, Repr

def M (α : Type) : Type := St → Res α

instance : Monad M where
  pure a := fun s => Res.ok a s
  bind x f := fun s =>
    match x s with
    | Res.ok a s2 => f a s2
    | Res.panik => Res.panik
    | Res.fuel => Res.fuel

def mfuel {α : Type} : M α := fun _ => Res.fuel

def getIndex : M Nat := fun s => Res.ok s.index s

def setIndex (i : Nat) : M Unit := fun s => Res.ok () { s with index := i }

def setScheme (v : List Nat) : M Unit := fun s => Res.ok () { s with scheme := v }

def setAuthority (v : List Nat) : M Unit := fun s => Res.ok () { s with authority := v }

def setPath (v : List Nat) : M Unit := fun s => Res.ok () { s with path := v }

def setQuery (v : List Nat) : M Unit := fun s => Res.ok () { s with query := v }

def setFragment (v : List Nat) : M Unit := fun s => Res.ok () { s with fragment := v }

/-- List indexing, `none` when out of range (a `none` dereference is a panic). -/
def runeAt : List Nat → Nat → Option Nat
  | [], _ => none
  | x :: _, 0 => some x
  | _ :: xs, i + 1 => runeAt xs i

/-- `p.next()`: Go tests `p.index-1 < p.length` over ints; for a nonnegative
index that is `index < length + 1`. -/
def next (ctx : Ctx) : M Bool := fun s =>
  if s.index < ctx.length + 1 then Res.ok true { s with index := s.index + 1 }
  else Res.ok false s

/-- `p.current()`: `(0, EOIError)` when `index >= length`, else `p.runes[p.index]`,
which panics when the index is inside the byte length but outside the rune
slice. The `Bool` is whether the error return was non-nil. -/
def current (ctx : Ctx) : M (Nat × Bool) := fun s =>
  if ctx.length ≤ s.index then Res.ok (0, true) s
  else
    match runeAt ctx.runes s.index with
    | some r => Res.ok (r, false) s
    | none => Res.panik

/-- `p.peek()`: an error only when `index+1 == length`, else `p.runes[p.index+1]`
(which can panic). -/
def peek (ctx : Ctx) : M (Nat × Bool) := fun s =>
  if s.index + 1 = ctx.length then Res.ok (0, true) s
  else
    match runeAt ctx.runes (s.index + 1) with
    | some r => Res.ok (r, false) s
    | none => Res.panik

/-- Go slice expression `p.runes[a:b]`: panics unless `a ≤ b ≤ len(p.runes)`. -/
def sliceRunes (ctx : Ctx) (a b : Nat) : M (List Nat) := fun s =>
  if a ≤ b ∧ b ≤ ctx.runes.length then Res.ok ((ctx.runes.drop a).take (b - a)) s
  else Res.panik

/-- `newIriError`: records `p.index` and the rune from `p.current()`. -/
def newIriError (ctx : Ctx) (msg : String) : M Err := do
  let rc ← current ctx
  let i ← getIndex
  pure (Err.iriErr i rc.1 msg)

/-- `isAlpha`: membership in the `alpha` constant string. -/
def isAlpha (r : Nat) : Bool := (65 ≤ r && r ≤ 90) || (97 ≤ r && r ≤ 122)

/-- `isDigit`: membership in the `digit` constant string. -/
def isDigit (r : Nat) : Bool := 48 ≤ r && r ≤ 57

/-- `isSubDelim`: membership in `subDelims` = `!$&()*+,;=` and the apostrophe. -/
def isSubDelim (r : Nat) : Bool :=
  r == 33 || r == 36 || r == 38 || r == 39 || r == 40 || r == 41 ||
  r == 42 || r == 43 || r == 44 || r == 59 || r == 61

/-- `isUnreserved`: alpha, digit, or one of `-._~`. -/
def isUnreserved (r : Nat) : Bool :=
  isAlpha r || isDigit r || r == 45 || r == 46 || r == 95 || r == 126

/-- `isHexDigit`: `abcdefABCDEF` or a digit. -/
def isHexDigit (r : Nat) : Bool :=
  isDigit r || (97 ≤ r && r ≤ 102) || (65 ≤ r && r ≤ 70)

/-- The fifteen ucschar ranges tested by `parser.ucschar`. -/
def isUcsChar (r : Nat) : Bool :=
  (0xa0 ≤ r && r ≤ 0xd7ff) ||
  (0x10000 ≤ r && r ≤ 0x1fffd) ||
  (0x20000 ≤ r && r ≤ 0x2fffd) ||
  (0x30000 ≤ r && r ≤ 0x3fffd) ||
  (0x40000 ≤ r && r ≤ 0x4fffd) ||
  (0x50000 ≤ r && r ≤ 0x5fffd) ||
  (0x60000 ≤ r && r ≤ 0x6fffd) ||
  (0x70000 ≤ r && r ≤ 0x7fffd) ||
  (0x80000 ≤ r && r ≤ 0x8fffd) ||
  (0x90000 ≤ r && r ≤ 0x9fffd) ||
  (0xa0000 ≤ r && r ≤ 0xafffd) ||
  (0xb0000 ≤ r && r ≤ 0xbfffd) ||
  (0xc0000 ≤ r && r ≤ 0xcfffd) ||
  (0xd0000 ≤ r && r ≤ 0xdfffd) ||
  (0xe0000 ≤ r && r ≤ 0xefffd)

/-- The three private-use ranges tested by `parser.iprivate`. -/
def isIPrivate (r : Nat) : Bool :=
  (0xe000 ≤ r && r ≤ 0xf8ff) || (0xf0000 ≤ r && r ≤ 0xffffd) ||
  (0x100000 ≤ r && r ≤ 0x10fff8)

/-- `parser.ucschar`: tests the current rune; succeeds without advancing. -/
def ucschar (ctx : Ctx) : M (Option Err) := do
  let rc ← current ctx
  if isUcsChar rc.1 then pure none
  else do
    let e ← newIriError ctx "Invalid ucschar value"
    pure (some e)

/-- `parser.iprivate`: tests the current rune; succeeds without advancing. -/
def iprivate (ctx : Ctx) : M (Option Err) := do
  let rc ← current ctx
  if isIPrivate rc.1 then pure none
  else do
    let e ← newIriError ctx "Invalid iprivate value"
    pure (some e)

/-- `parser.iunreserved`. Note the Go control flow: when `ucschar` succeeds the
function falls through to `return newIriError(...)` and never advances. -/
def iunreserved (ctx : Ctx) : M (Option Err) := do
  let rc ← current ctx
  if isAlpha rc.1 || isDigit rc.1 || rc.1 == 45 || rc.1 == 46 || rc.1 == 95 || rc.1 == 126 then do
    let b ← next ctx
    if !b then pure (some Err.eoi) else pure none
  else do
    let u ← ucschar ctx
    match u with
    | some e => pure (some e)
    | none => do
      let e ← newIriError ctx "Invalid iunreserved value"
      pure (some e)

/-- `parser.pctEncoded`: `%` then two hex digits, advancing past each. -/
def pctEncoded (ctx : Ctx) : M (Option Err) := do
  let rc ← current ctx
  if rc.1 != 37 then do
    let e ← newIriError ctx "invalid pct encoding"
    pure (some e)
  else do
    let b ← next ctx
    if !b then pure (some Err.eoi)
    else do
      let rc2 ← current ctx
      if !isHexDigit rc2.1 then do
        let e ← newIriError ctx "invalid pct encoding"
        pure (some e)
      else do
        let b2 ← next ctx
        if !b2 then pure (some Err.eoi)
        else do
          let rc3 ← current ctx
          if !isHexDigit rc3.1 then do
            let e ← newIriError ctx "invalid pct encoding"
            pure (some e)
          else do
            let b3 ← next ctx
            if !b3 then pure (some Err.eoi) else pure none

/-- `parser.ipchar`: ordered choice of iunreserved / pct-encoded /
sub-delims, `:`, `@`. -/
def ipchar (ctx : Ctx) : M (Option Err) := do
  let pre ← getIndex
  let r1 ← iunreserved ctx
  if r1.isNone then pure none
  else do
    setIndex pre
    let r2 ← pctEncoded ctx
    if r2.isNone then pure none
    else do
      setIndex pre
      let rc ← current ctx
      if isSubDelim rc.1 || rc.1 == 58 || rc.1 == 64 then do
        let _ ← next ctx
        pure none
      else do
        let e ← newIriError ctx "Invalid ipchar value"
        pure (some e)

/-- One iteration of the `for` loop of `parser.isegment`; `rec` is the rest of
the loop. (Each loop is a `Nat.rec` tower over its fuel so that evaluating it
unfolds one iteration per fuel step.) -/
def isegmentLoopF (ctx : Ctx) (rec : M Unit) : M Unit := do
  let pre ← getIndex
  let r ← ipchar ctx
  if r.isNone then rec
  else do
    setIndex pre
    pure ()

/-- The `for` loop of `parser.isegment`. -/
def isegmentLoop (ctx : Ctx) (f : Nat) : M Unit :=
  Nat.rec (motive := fun _ => M Unit) mfuel (fun _ ih => isegmentLoopF ctx ih) f

/-- `parser.isegment` (void: greedy run of ipchar). -/
def isegment (ctx : Ctx) (f : Nat) : M Unit := isegmentLoop ctx f

/-- One iteration of the `for` loop of `parser.isegmentNz`, tracking the count
`i` and the rolling `preIndex`. -/
def isegmentNzLoopF (ctx : Ctx) (rec : Nat → Nat → M (Nat × Nat))
    (i preIndex : Nat) : M (Nat × Nat) := do
  let r ← ipchar ctx
  if r.isNone then do
    let idx ← getIndex
    rec (i + 1) idx
  else pure (i, preIndex)

/-- The `for` loop of `parser.isegmentNz`. -/
def isegmentNzLoop (ctx : Ctx) (f : Nat) : Nat → Nat → M (Nat × Nat) :=
  Nat.rec (motive := fun _ => Nat → Nat → M (Nat × Nat)) (fun _ _ => mfuel)
    (fun _ ih => isegmentNzLoopF ctx ih) f

/-- `parser.isegmentNz`: at least one ipchar. -/
def isegmentNz (ctx : Ctx) (f : Nat) : M (Option Err) := do
  let pre ← getIndex
  let ip ← isegmentNzLoop ctx f 0 pre
  setIndex ip.2
  if ip.1 < 1 then do
    let e ← newIriError ctx "Invalid isegment-nz value"
    pure (some e)
  else pure none

/-- `parser.ipathEmpty`: succeeds exactly when `p.current()` returns no error. -/
def ipathEmpty (ctx : Ctx) : M (Option Err) := do
  let rc ← current ctx
  if rc.2 then pure (some Err.eoi) else pure none

/-- One iteration of the `for` loop of `parser.ipathAbEmpty`; `some ()` is the
early `return EOIError` (which skips the Path assignment), `none` the normal
break. `f` is the remaining fuel handed to the inner `isegment`. -/
def ipathAbEmptyLoopF (ctx : Ctx) (f : Nat) (rec : M (Option Unit)) : M (Option Unit) := do
  let rc ← current ctx
  if rc.2 then pure none
  else if rc.1 != 47 then pure none
  else do
    let b ← next ctx
    if !b then pure (some ())
    else do
      let i ← getIndex
      isegment ctx f
      let i2 ← getIndex
      if i == i2 then pure none else rec

/-- The `for` loop of `parser.ipathAbEmpty`. -/
def ipathAbEmptyLoop (ctx : Ctx) (f : Nat) : M (Option Unit) :=
  Nat.rec (motive := fun _ => M (Option Unit)) mfuel
    (fun n ih => ipathAbEmptyLoopF ctx n ih) f

/-- `parser.ipathAbEmpty`: `("/" isegment)*`, then records Path. -/
def ipathAbEmpty (ctx : Ctx) (f : Nat) : M (Option Err) := do
  let start ← getIndex
  let res ← ipathAbEmptyLoop ctx f
  match res with
  | some _ => pure (some Err.eoi)
  | none => do
    let idx ← getIndex
    let sl ← sliceRunes ctx start idx
    setPath sl
    pure none

/-- One iteration of the inner `for` loop of `parser.ipathAbsolute`; `some ()`
is the early `return EOIError`, `none` the normal break. -/
def ipathAbsoluteLoopF (ctx : Ctx) (f : Nat) (rec : M (Option Unit)) : M (Option Unit) := do
  let rc ← current ctx
  if rc.1 != 47 then pure none
  else do
    let b ← next ctx
    if !b then pure (some ())
    else do
      let i ← getIndex
      isegment ctx f
      let i2 ← getIndex
      if i == i2 then pure none else rec

/-- The inner `for` loop of `parser.ipathAbsolute`. -/
def ipathAbsoluteLoop (ctx : Ctx) (f : Nat) : M (Option Unit) :=
  Nat.rec (motive := fun _ => M (Option Unit)) mfuel
    (fun n ih => ipathAbsoluteLoopF ctx n ih) f

/-- `parser.ipathAbsolute`: `/ [isegment-nz ("/" isegment)*]`, records Path,
then one more `next()`. -/
def ipathAbsolute (ctx : Ctx) (f : Nat) : M (Option Err) := do
  let start ← getIndex
  let rc ← current ctx
  if rc.1 != 47 then do
    let e ← newIriError ctx "ipath-absolute must start with slash"
    pure (some e)
  else do
    let b ← next ctx
    if !b then pure (some Err.eoi)
    else do
      let pre ← getIndex
      let nz ← isegmentNz ctx f
      let lr ← (match nz with
        | some _ => do
          setIndex pre
          pure (none : Option Unit)
        | none => ipathAbsoluteLoop ctx f)
      match lr with
      | some _ => pure (some Err.eoi)
      | none => do
        let idx ← getIndex
        let sl ← sliceRunes ctx start idx
        setPath sl
        let b2 ← next ctx
        if !b2 then pure (some Err.eoi) else pure none

/-- One iteration of the `for` loop of `parser.ipathRootless`, with the fixed
restore index. -/
def ipathRootlessLoopF (ctx : Ctx) (preIndex f : Nat) (rec : M (Option Err)) :
    M (Option Err) := do
  let rc ← current ctx
  if rc.2 then do
    setIndex preIndex
    pure (some Err.eoi)
  else if rc.1 != 47 then do
    setIndex preIndex
    let e ← newIriError ctx "Invalid ipath-rootless value"
    pure (some e)
  else do
    isegment ctx f
    let b ← next ctx
    if !b then pure none
    else rec

/-- The `for` loop of `parser.ipathRootless`. -/
def ipathRootlessLoop (ctx : Ctx) (preIndex : Nat) (f : Nat) : M (Option Err) :=
  Nat.rec (motive := fun _ => M (Option Err)) mfuel
    (fun n ih => ipathRootlessLoopF ctx preIndex n ih) f

/-- `parser.ipathRootless`. Note: the Go function never assigns `p.instance.Path`. -/
def ipathRootless (ctx : Ctx) (f : Nat) : M (Option Err) := do
  let pre ← getIndex
  let nz ← isegmentNz ctx f
  match nz with
  | some e => do
    setIndex pre
    pure (some e)
  | none => do
    let b ← next ctx
    if !b then pure (some Err.eoi)
    else do
      let pre2 ← getIndex
      ipathRootlessLoop ctx pre2 f

/-- One iteration of the `for` loop of `parser.iuserInfo`. -/
def iuserInfoLoopF (ctx : Ctx) (rec : M (Option Err)) : M (Option Err) := do
  let pre ← getIndex
  let r1 ← iunreserved ctx
  if r1.isNone then do
    let b ← next ctx
    if !b then pure (some Err.eoi) else rec
  else do
    setIndex pre
    let r2 ← pctEncoded ctx
    if r2.isNone then do
      let b ← next ctx
      if !b then pure (some Err.eoi) else rec
    else do
      setIndex pre
      let rc ← current ctx
      if isSubDelim rc.1 then do
        let b ← next ctx
        if !b then pure (some Err.eoi) else rec
      else if rc.1 == 58 then do
        let b ← next ctx
        if !b then pure (some Err.eoi) else rec
      else pure none

/-- The `for` loop of `parser.iuserInfo`. -/
def iuserInfoLoop (ctx : Ctx) (f : Nat) : M (Option Err) :=
  Nat.rec (motive := fun _ => M (Option Err)) mfuel
    (fun _ ih => iuserInfoLoopF ctx ih) f

/-- `parser.iuserInfo`. -/
def iuserInfo (ctx : Ctx) (f : Nat) : M (Option Err) := iuserInfoLoop ctx f

/-- One iteration of the `for` loop of `parser.iregName` (void). -/
def iregNameLoopF (ctx : Ctx) (rec : M Unit) : M Unit := do
  let pre ← getIndex
  let r1 ← iunreserved ctx
  let cont ← (if r1.isNone then pure true
    else do
      setIndex pre
      let r2 ← pctEncoded ctx
      if r2.isNone then pure true
      else do
        setIndex pre
        let rc ← current ctx
        pure (isSubDelim rc.1))
  if cont then do
    let b ← next ctx
    if b then rec else pure ()
  else pure ()

/-- The `for` loop of `parser.iregName` (void). -/
def iregNameLoop (ctx : Ctx) (f : Nat) : M Unit :=
  Nat.rec (motive := fun _ => M Unit) mfuel (fun _ ih => iregNameLoopF ctx ih) f

/-- `parser.iregName` (void). -/
def iregName (ctx : Ctx) (f : Nat) : M Unit := iregNameLoop ctx f

/-- One iteration of the bounded hex-digit loop of `parser.h16`. -/
def h16LoopF (ctx : Ctx) (rec : M (Option Err)) : M (Option Err) := do
  let pc ← peek ctx
  if pc.2 then pure none
  else if isHexDigit pc.1 then do
    let b ← next ctx
    if !b then pure (some Err.eoi)
    else rec
  else pure none

/-- `parser.h16`: first rune must be a hex digit; then up to three more via
`peek`/`next`; the bounded loop counts `hexCount` from 1 to 4, so at most
three further digits are taken. -/
def h16Loop (ctx : Ctx) (k : Nat) : M (Option Err) :=
  Nat.rec (motive := fun _ => M (Option Err)) (pure none)
    (fun _ ih => h16LoopF ctx ih) k

/-- `parser.h16`. -/
def h16 (ctx : Ctx) : M (Option Err) := do
  let rc ← current ctx
  if !isHexDigit rc.1 then do
    let e ← newIriError ctx "invalid h16 value"
    pure (some e)
  else h16Loop ctx 3

/-- `parser.decOctet`: one to three digits with leading-zero and 0-255 range
checks. Note the Go slip in the three-digit arm: the advance guard tests
`len(octetRunes) == 1` although the length there is always 3, so a
three-digit octet at the end of input does not advance past its last digit. -/
def decOctet (ctx : Ctx) : M (Option Err) := do
  let rc ← current ctx
  if !isDigit rc.1 then do
    let e ← newIriError ctx "invalid decimal octet"
    pure (some e)
  else do
    let pc ← peek ctx
    if pc.2 || !isDigit pc.1 then do
      let b ← next ctx
      if !b then pure (some Err.eoi) else pure none
    else do
      let b ← next ctx
      if !b then pure (some Err.eoi)
      else do
        let rc2 ← current ctx
        let d := (rc.1 - 48) * 10 + (rc2.1 - 48)
        if d < 10 then do
          let e ← newIriError ctx "invalid octet value"
          pure (some e)
        else do
          let pc2 ← peek ctx
          if pc2.2 || !isDigit pc2.1 then do
            let b2 ← next ctx
            if !b2 then pure (some Err.eoi) else pure none
          else do
            let b2 ← next ctx
            if !b2 then pure (some Err.eoi)
            else do
              let rc3 ← current ctx
              let d2 := ((rc.1 - 48) * 10 + (rc2.1 - 48)) * 10 + (rc3.1 - 48)
              if d2 < 100 || d2 > 255 then do
                let e ← newIriError ctx "invalid octet value"
                pure (some e)
              else do
                let pc3 ← peek ctx
                if pc3.2 then pure none
                else if isDigit pc3.1 then do
                  let e ← newIriError ctx "invalid octet value"
                  pure (some e)
                else do
                  let b3 ← next ctx
                  if !b3 then pure (some Err.eoi) else pure none

/-- One iteration of the bounded `for octCount < 4` loop of
`parser.ipv4Address`; `rem` is the number of octets still to read after the
current one. A `decOctet` result of `EOIError` is tolerated
(`oErr != nil && oErr != EOIError`). -/
def ipv4LoopF (ctx : Ctx) (rem : Nat) (rec : M (Option Err)) : M (Option Err) := do
  let o ← decOctet ctx
  let bad : Option Err := match o with
    | none => none
    | some Err.eoi => none
    | some e => some e
  match bad with
  | some e => pure (some e)
  | none =>
    if rem == 0 then pure none
    else do
      let rc ← current ctx
      if rc.1 != 46 then do
        let e ← newIriError ctx "invalid ipv4 address"
        pure (some e)
      else do
        let b ← next ctx
        if !b then pure (some Err.eoi)
        else rec

/-- The bounded octet loop of `parser.ipv4Address`. -/
def ipv4Loop (ctx : Ctx) (k : Nat) : M (Option Err) :=
  Nat.rec (motive := fun _ => M (Option Err)) (pure none)
    (fun n ih => ipv4LoopF ctx n ih) k

/-- `parser.ipv4Address`: four octets separated by dots. -/
def ipv4Address (ctx : Ctx) : M (Option Err) := ipv4Loop ctx 4

/-- One step outcome inside the `parser.ipv6Address` loop: an early `return`,
a `break`, or a `continue` with updated `groupCount`, `zeroCollapse`,
`prevColon`. -/
inductive V6Step where
  | ret : Option Err → V6Step
  | brk : V6Step
  | cont : Nat → Bool → Bool → V6Step

/-- One iteration of the `for` loop of `parser.ipv6Address`. -/
def ipv6LoopF (ctx : Ctx) (rec : Nat → Bool → Bool → M (Option Err))
    (groupCount : Nat) (zeroCollapse prevColon : Bool) : M (Option Err) := do
    let rc ← current ctx
    let step ← (if rc.1 == 58 then
        (if prevColon then
          (if zeroCollapse then do
            let e ← newIriError ctx "Ambiguous colon"
            pure (V6Step.ret (some e))
          else pure (V6Step.cont groupCount true true))
        else if zeroCollapse then do
          let e ← newIriError ctx "Invalid zero collapse in ipv6"
          pure (V6Step.ret (some e))
        else pure (V6Step.cont groupCount zeroCollapse true))
      else do
        let h ← h16 ctx
        match h with
        | some _ =>
          if groupCount < 8 then
            (if zeroCollapse then pure (V6Step.ret none)
            else do
              let e ← newIriError ctx "Invalid group count in ipv6"
              pure (V6Step.ret (some e)))
          else pure V6Step.brk
        | none => pure (V6Step.cont (groupCount + 1) zeroCollapse false))
    match step with
    | V6Step.ret e => pure e
    | V6Step.brk => do
      let _ ← next ctx
      pure none
    | V6Step.cont gc zc pc =>
      if gc == 8 then do
        let _ ← next ctx
        pure none
      else do
        let b ← next ctx
        if !b then pure (some Err.eoi)
        else rec gc zc pc

/-- The `for` loop of `parser.ipv6Address`. -/
def ipv6Loop (ctx : Ctx) (f : Nat) : Nat → Bool → Bool → M (Option Err) :=
  Nat.rec (motive := fun _ => Nat → Bool → Bool → M (Option Err))
    (fun _ _ _ => mfuel) (fun _ ih => ipv6LoopF ctx ih) f

/-- `parser.ipv6Address`. -/
def ipv6Address (ctx : Ctx) (f : Nat) : M (Option Err) := ipv6Loop ctx f 0 false false

/-- One iteration of the first loop of `parser.ipvFuture`: `p.next()` then
`h16`, counting groups; `none` is the normal break. -/
def ipvFutureLoop1F (ctx : Ctx) (rec : Nat → M (Option Err)) (h16Count : Nat) :
    M (Option Err) := do
  let _ ← next ctx
  let h ← h16 ctx
  match h with
  | none => rec (h16Count + 1)
  | some _ =>
    if h16Count < 1 then do
      let e ← newIriError ctx "Invalid IpvFuture"
      pure (some e)
    else pure none

/-- First loop of `parser.ipvFuture`. -/
def ipvFutureLoop1 (ctx : Ctx) (f : Nat) : Nat → M (Option Err) :=
  Nat.rec (motive := fun _ => Nat → M (Option Err)) (fun _ => mfuel)
    (fun _ ih => ipvFutureLoop1F ctx ih) f

/-- One iteration of the second loop of `parser.ipvFuture`: unreserved /
sub-delims / `:` run. -/
def ipvFutureLoop2F (ctx : Ctx) (rec : Nat → M (Option Err)) (postCount : Nat) :
    M (Option Err) := do
  let rc ← current ctx
  if isUnreserved rc.1 || isSubDelim rc.1 || rc.1 == 58 then do
    let b ← next ctx
    if b then rec (postCount + 1)
    else pure (some Err.eoi)
  else if postCount < 1 then do
    let e ← newIriError ctx "Invalid IpvFuture"
    pure (some e)
  else pure none

/-- Second loop of `parser.ipvFuture`. -/
def ipvFutureLoop2 (ctx : Ctx) (f : Nat) : Nat → M (Option Err) :=
  Nat.rec (motive := fun _ => Nat → M (Option Err)) (fun _ => mfuel)
    (fun _ ih => ipvFutureLoop2F ctx ih) f

/-- `parser.ipvFuture`. -/
def ipvFuture (ctx : Ctx) (f : Nat) : M (Option Err) := do
  let rc ← current ctx
  if rc.1 != 118 then do
    let e ← newIriError ctx "IpvFuture must start with v"
    pure (some e)
  else do
    let l1 ← ipvFutureLoop1 ctx f 0
    match l1 with
    | some e => pure (some e)
    | none => do
      let rc2 ← current ctx
      if rc2.1 != 46 then do
        let e ← newIriError ctx "Invalid IpvFuture"
        pure (some e)
      else do
        let _ ← next ctx
        ipvFutureLoop2 ctx f 0

/-- `parser.ipLiteral`: `[`, then ipv6 or ipvFuture, then `]`. -/
def ipLiteral (ctx : Ctx) (f : Nat) : M (Option Err) := do
  let rc ← current ctx
  if rc.1 != 91 then do
    let e ← newIriError ctx "Missing starting bracket ip literal"
    pure (some e)
  else do
    let b ← next ctx
    if !b then pure (some Err.eoi)
    else do
      let pre ← getIndex
      let v6 ← ipv6Address ctx f
      let failed ← (match v6 with
        | none => pure false
        | some _ => do
          setIndex pre
          let vf ← ipvFuture ctx f
          pure vf.isSome)
      if failed then do
        let e ← newIriError ctx "Invalid ipv6 or ipv future for ip literal"
        pure (some e)
      else do
        let rc2 ← current ctx
        if rc2.1 != 93 then do
          let e ← newIriError ctx "Missing ending bracket ip literal"
          pure (some e)
        else do
          let _ ← next ctx
          pure none

/-- `parser.ihost` (void): ordered choice ipLiteral / ipv4Address / iregName. -/
def ihost (ctx : Ctx) (f : Nat) : M Unit := do
  let pre ← getIndex
  let r1 ← ipLiteral ctx f
  if r1.isNone then pure ()
  else do
    setIndex pre
    let r2 ← ipv4Address ctx
    if r2.isNone then pure ()
    else do
      setIndex pre
      iregName ctx f

/-- One iteration of the digit-run loop of `parser.port`. -/
def portLoopF (ctx : Ctx) (rec : List Nat → Nat → M (List Nat × Nat))
    (digits : List Nat) (count : Nat) : M (List Nat × Nat) := do
  let rc ← current ctx
  if isDigit rc.1 then do
    let b ← next ctx
    if b then rec (digits ++ [rc.1]) (count + 1)
    else pure (digits ++ [rc.1], count + 1)
  else pure (digits, count)

/-- The digit-run loop of `parser.port`. -/
def portLoop (ctx : Ctx) (f : Nat) : List Nat → Nat → M (List Nat × Nat) :=
  Nat.rec (motive := fun _ => List Nat → Nat → M (List Nat × Nat))
    (fun _ _ => mfuel) (fun _ ih => portLoopF ctx ih) f

/-- Decimal value of a digit-rune list (`strconv.Atoi` on an all-digit string). -/
def digitsToNat (ds : List Nat) : Nat := ds.foldl (fun a d => a * 10 + (d - 48)) 0

/-- `parser.port`: one to five digits, value at most 65535, then one `next()`. -/
def port (ctx : Ctx) (f : Nat) : M (Option Err) := do
  let dc ← portLoop ctx f [] 0
  if dc.2 == 0 then do
    let e ← newIriError ctx "No port"
    pure (some e)
  else if dc.2 > 5 then do
    let e ← newIriError ctx "Invalid port"
    pure (some e)
  else if digitsToNat dc.1 > 65535 then do
    let e ← newIriError ctx "Invalid port value"
    pure (some e)
  else do
    let _ ← next ctx
    pure none

/-- `parser.iauthority`: optional user-info `@`, host, optional port (tried
with the cursor still on the `:`), then the Authority slice. -/
def iauthority (ctx : Ctx) (f : Nat) : M (Option Err) := do
  let authStart ← getIndex
  let pre ← getIndex
  let ui ← iuserInfo ctx f
  let early ← (match ui with
    | none => do
      let rc ← current ctx
      if rc.1 == 64 then do
        let b ← next ctx
        if !b then pure true else pure false
      else do
        setIndex pre
        pure false
    | some _ => do
      setIndex pre
      pure false)
  if early then pure (some Err.eoi)
  else do
    ihost ctx f
    let rc ← current ctx
    let pre2 ← getIndex
    if rc.1 == 58 then do
      let pr ← port ctx f
      match pr with
      | some _ => setIndex pre2
      | none => pure ()
    else pure ()
    let idx ← getIndex
    let sl ← sliceRunes ctx authStart idx
    setAuthority sl
    pure none

/-- One iteration of the `for` loop of `parser.iquery`; a failed `next()` on
the `/`-or-`?` branch breaks out WITHOUT assigning Query. -/
def iqueryLoopF (ctx : Ctx) (startIndex : Nat) (rec : M Unit) : M Unit := do
  let pre ← getIndex
  let r1 ← ipchar ctx
  if r1.isNone then rec
  else do
    setIndex pre
    let r2 ← iprivate ctx
    if r2.isNone then rec
    else do
      setIndex pre
      let rc ← current ctx
      if rc.1 == 47 || rc.1 == 63 then do
        let b ← next ctx
        if !b then pure ()
        else rec
      else do
        let idx ← getIndex
        let sl ← sliceRunes ctx startIndex idx
        setQuery sl
        pure ()

/-- The `for` loop of `parser.iquery`. -/
def iqueryLoop (ctx : Ctx) (startIndex : Nat) (f : Nat) : M Unit :=
  Nat.rec (motive := fun _ => M Unit) mfuel
    (fun _ ih => iqueryLoopF ctx startIndex ih) f

/-- `parser.iquery` (void). Note the iprivate branch continues without
advancing the cursor. -/
def iquery (ctx : Ctx) (f : Nat) : M Unit := do
  let st ← getIndex
  iqueryLoop ctx st f

/-- One iteration of the `for` loop of `parser.ifragment`; the `/`-or-`?`
branch continues WITHOUT advancing the cursor. -/
def ifragmentLoopF (ctx : Ctx) (startIndex : Nat) (rec : M Unit) : M Unit := do
  let pre ← getIndex
  let r1 ← ipchar ctx
  if r1.isNone then rec
  else do
    setIndex pre
    let rc ← current ctx
    if rc.1 == 47 || rc.1 == 63 then rec
    else do
      let idx ← getIndex
      let sl ← sliceRunes ctx startIndex idx
      setFragment sl
      pure ()

/-- The `for` loop of `parser.ifragment`. -/
def ifragmentLoop (ctx : Ctx) (startIndex : Nat) (f : Nat) : M Unit :=
  Nat.rec (motive := fun _ => M Unit) mfuel
    (fun _ ih => ifragmentLoopF ctx startIndex ih) f

/-- `parser.ifragment` (void). -/
def ifragment (ctx : Ctx) (f : Nat) : M Unit := do
  let st ← getIndex
  ifragmentLoop ctx st f

/-- The condition of the scheme loop: `isAlpha(r) || isDigit(r) || r == '+' ||
r == '-' || r == '.'`. -/
def isSchemeChar (r : Nat) : Bool :=
  isAlpha r || isDigit r || r == 43 || r == 45 || r == 46

/-- One iteration of the `for` loop of `parser.schema`, accumulating
`schemaRunes`. -/
def schemaLoopF (ctx : Ctx) (rec : List Nat → M (Option Err)) (acc : List Nat) :
    M (Option Err) := do
  let rc ← current ctx
  if isSchemeChar rc.1 then do
    let acc2 := acc ++ [rc.1]
    let b ← next ctx
    if !b then do
      setScheme acc2
      pure none
    else rec acc2
  else do
    setScheme acc
    pure none

/-- The `for` loop of `parser.schema`. -/
def schemaLoop (ctx : Ctx) (f : Nat) : List Nat → M (Option Err) :=
  Nat.rec (motive := fun _ => List Nat → M (Option Err)) (fun _ => mfuel)
    (fun _ ih => schemaLoopF ctx ih) f

/-- `parser.schema`: ALPHA then the scheme-character loop. -/
def schema (ctx : Ctx) (f : Nat) : M (Option Err) := do
  let rc ← current ctx
  if !isAlpha rc.1 then do
    let e ← newIriError ctx "Scheme must start with alpha"
    pure (some e)
  else do
    let b ← next ctx
    if !b then pure (some Err.eoi)
    else schemaLoop ctx f [rc.1]

/-- `parser.ihierPart`: `// iauthority ipath-abempty` (with lookahead), else
ipath-absolute, else ipath-rootless, else ipath-empty. The authority branch
outcome: `some true` = early `return EOIError`, `some false` = success
`return nil`, `none` = fall through. -/
def ihierPart (ctx : Ctx) (f : Nat) : M (Option Err) := do
  let pre ← getIndex
  let rc ← current ctx
  let pc ← peek ctx
  let tryAuth ← (if !pc.2 && rc.1 == 47 && pc.1 == 47 then do
      let _ ← next ctx
      let b ← next ctx
      if !b then pure (some true)
      else do
        let a ← iauthority ctx f
        match a with
        | none => do
          let e ← ipathAbEmpty ctx f
          match e with
          | none => pure (some false)
          | some _ => pure (none : Option Bool)
        | some _ => pure (none : Option Bool)
    else pure (none : Option Bool))
  match tryAuth with
  | some true => pure (some Err.eoi)
  | some false => pure none
  | none => do
    setIndex pre
    let ab ← ipathAbsolute ctx f
    match ab with
    | none => do
      let b ← next ctx
      if !b then pure (some Err.eoi) else pure none
    | some _ => do
      setIndex pre
      let rl ← ipathRootless ctx f
      match rl with
      | none => do
        let b ← next ctx
        if !b then pure (some Err.eoi) else pure none
      | some _ => do
        setIndex pre
        let pe ← ipathEmpty ctx
        match pe with
        | some _ => do
          let e ← newIriError ctx "Invalid irelative-part value"
          pure (some e)
        | none => pure none

/-- `parser.iri`: scheme, `:`, hier-part (an `EOIError` from it is success),
then optional query or fragment. -/
def iri (ctx : Ctx) (f : Nat) : M (Option Err) := do
  let se ← schema ctx f
  match se with
  | some e => pure (some e)
  | none => do
    let rc ← current ctx
    if rc.1 != 58 then do
      let e ← newIriError ctx "iri missing colon after schema"
      pure (some e)
    else do
      let b ← next ctx
      if !b then pure (some Err.eoi)
      else do
        let he ← ihierPart ctx f
        match he with
        | some Err.eoi => pure none
        | some e => pure (some e)
        | none => do
          let rc2 ← current ctx
          if rc2.1 == 63 then do
            let b2 ← next ctx
            if !b2 then pure (some Err.eoi)
            else do
              iquery ctx f
              pure none
          else if rc2.1 == 35 then do
            let b2 ← next ctx
            if !b2 then pure (some Err.eoi)
            else do
              ifragment ctx f
              pure none
          else pure none

/-- Overall result of `ParseIri`: an `IRI`, an error, a runtime panic, or fuel
exhaustion (non-termination). -/
inductive PROut where
  | ok : IRI → PROut
  | err : Err → PROut
  | panik : PROut
  | fuel : PROut
deriving DecidableEq, Repr

/-- Initial state: `ParseIri` calls `p.next()` once, moving the index from the
-1 sentinel to 0. -/
def initSt : St := ⟨0, [], [], [], [], []⟩

/-- `parser.parse` driven by `ParseIri`: run `iri`, then set
`Value = string(p.runes)`. -/
def parseWith (runes : List Nat) (length : Nat) (f : Nat) : PROut :=
  match iri ⟨runes, length⟩ f initSt with
  | Res.ok (some e) _ => PROut.err e
  | Res.ok none s => PROut.ok ⟨runes, s.scheme, s.authority, s.path, s.query, s.fragment⟩
  | Res.panik => PROut.panik
  | Res.fuel => PROut.fuel

/-- UTF-8 byte count of a scalar value (`len(value)` counts these). -/
def utf8Len (r : Nat) : Nat :=
  if r < 0x80 then 1 else if r < 0x800 then 2 else if r < 0x10000 then 3 else 4

/-- Byte length of the UTF-8 encoding of a code-point sequence. -/
def utf8Length (rs : List Nat) : Nat := (rs.map utf8Len).sum

/-- `ParseIri` on a valid-UTF-8 input string identified with its code points:
`p.runes` is the code-point list, `p.length` its byte count. -/
def parseIri (rs : List Nat) (f : Nat) : PROut := parseWith rs (utf8Length rs) f

/-- One step of Go UTF-8 decoding (`bytes.Runes` / `utf8.DecodeRune`): decode
one rune from the front (an invalid byte yields one U+FFFD replacement rune
and is consumed alone) and hand the remaining bytes to `rec`. -/
def utf8DecF (rec : List Nat → List Nat) : List Nat → List Nat
  | [] => []
  | b1 :: rest =>
    if b1 < 0x80 then b1 :: rec rest
    else if b1 < 0xc2 || 0xf4 < b1 then 0xfffd :: rec rest
    else if b1 ≤ 0xdf then
      match rest with
      | b2 :: rest2 =>
        if 0x80 ≤ b2 && b2 ≤ 0xbf then ((b1 - 0xc0) * 64 + (b2 - 0x80)) :: rec rest2
        else 0xfffd :: rec rest
      | [] => 0xfffd :: rec rest
    else if b1 ≤ 0xef then
      match rest with
      | b2 :: b3 :: rest3 =>
        if (if b1 == 0xe0 then 0xa0 ≤ b2 && b2 ≤ 0xbf
            else if b1 == 0xed then 0x80 ≤ b2 && b2 ≤ 0x9f
            else 0x80 ≤ b2 && b2 ≤ 0xbf) && 0x80 ≤ b3 && b3 ≤ 0xbf then
          ((b1 - 0xe0) * 4096 + (b2 - 0x80) * 64 + (b3 - 0x80)) :: rec rest3
        else 0xfffd :: rec rest
      | _ => 0xfffd :: rec rest
    else
      match rest with
      | b2 :: b3 :: b4 :: rest4 =>
        if (if b1 == 0xf0 then 0x90 ≤ b2 && b2 ≤ 0xbf
            else if b1 == 0xf4 then 0x80 ≤ b2 && b2 ≤ 0x8f
            else 0x80 ≤ b2 && b2 ≤ 0xbf) && 0x80 ≤ b3 && b3 ≤ 0xbf
            && 0x80 ≤ b4 && b4 ≤ 0xbf then
          ((b1 - 0xf0) * 262144 + (b2 - 0x80) * 4096 + (b3 - 0x80) * 64 + (b4 - 0x80))
            :: rec rest4
        else 0xfffd :: rec rest
      | _ => 0xfffd :: rec rest

/-- Go UTF-8 decoding of a whole byte string. The step budget is the byte
count: every step consumes at least one byte, so the budget never runs out
before the bytes do. -/
def utf8Dec (l : List Nat) : List Nat :=
  Nat.rec (motive := fun _ => List Nat → List Nat) (fun _ => [])
    (fun _ ih => utf8DecF ih) l.length l

/-- UTF-8 encoding of one rune as Go `string(r)` does (surrogates and
out-of-range values become U+FFFD). -/
def utf8EncChar (r : Nat) : List Nat :=
  if 0xd800 ≤ r && r ≤ 0xdfff || 0x10ffff < r then [0xef, 0xbf, 0xbd]
  else if r < 0x80 then [r]
  else if r < 0x800 then [0xc0 + r / 64, 0x80 + r % 64]
  else if r < 0x10000 then [0xe0 + r / 4096, 0x80 + (r / 64) % 64, 0x80 + r % 64]
  else [0xf0 + r / 262144, 0x80 + (r / 4096) % 64, 0x80 + (r / 64) % 64, 0x80 + r % 64]

/-- UTF-8 encoding of a rune sequence (Go `string([]rune)`). -/
def utf8Enc (rs : List Nat) : List Nat := (rs.map utf8EncChar).flatten

/-- `ParseIri` on a raw byte string: `p.runes = bytes.Runes(value)`,
`p.length = len(value)` in bytes. -/
def parseIriBytes (bs : List Nat) (f : Nat) : PROut := parseWith (utf8Dec bs) bs.length f

/-- Code points of an ASCII-representable Lean string, for readable inputs. -/
def str (s : String) : List Nat := s.toList.map Char.toNat

/-- The context of the input `a:#/` (four ASCII bytes). -/
def c2Ctx : Ctx := ⟨[97, 58, 35, 47], 4⟩

/-- The parser state reached on `a:#/` just after consuming `#`: cursor on the
`/`, scheme recorded. -/
def c2St : St := ⟨3, [97], [], [], [], []⟩

/-- The invalid-UTF-8 byte string `a:` followed by the stray byte 0xFF. -/
def c9Bytes : List Nat := [97, 58, 255]

/-- The rune sequence Go decodes from `c9Bytes`: the 0xFF byte becomes U+FFFD. -/
def c9Runes : List Nat := [97, 58, 0xfffd]

theorem bind_apply {α β : Type} (x : M α) (f : α → M β) (s : St) :
    (x >>= f) s = match x s with
      | Res.ok a s2 => f a s2
      | Res.panik => Res.panik
      | Res.fuel => Res.fuel := rfl

theorem pure_apply {α : Type} (a : α) (s : St) : (pure a : M α) s = Res.ok a s := rfl

theorem runeAt_append_left (l1 l2 : List Nat) (i : Nat) (h : i < l1.length) :
    runeAt (l1 ++ l2) i = runeAt l1 i := by
  induction l1 generalizing i with
  | nil => simp at h
  | cons x xs ih =>
    cases i with
    | zero => rfl
    | succ j =>
      simp only [List.length_cons] at h
      exact ih j (by omega)

theorem runeAt_append_right (l1 l2 : List Nat) (i : Nat) (h : l1.length ≤ i) :
    runeAt (l1 ++ l2) i = runeAt l2 (i - l1.length) := by
  induction l1 generalizing i with
  | nil => simp [runeAt]
  | cons x xs ih =>
    cases i with
    | zero => simp at h
    | succ j =>
      simp only [List.length_cons] at h ⊢
      rw [List.cons_append]
      show runeAt (xs ++ l2) j = _
      rw [ih j (by omega)]
      congr 1
      omega

theorem runeAt_of_drop_cons (l : List Nat) (i c : Nat) (u : List Nat)
    (h : l.drop i = c :: u) : runeAt l i = some c := by
  induction l generalizing i with
  | nil => simp at h
  | cons x xs ih =>
    cases i with
    | zero => simp_all [runeAt]
    | succ j => exact ih j h

theorem runeAt_some_of_lt (l : List Nat) (i : Nat) (h : i < l.length) :
    ∃ c, runeAt l i = some c := by
  induction l generalizing i with
  | nil => simp at h
  | cons x xs ih =>
    cases i with
    | zero => exact ⟨x, rfl⟩
    | succ j =>
      simp only [List.length_cons] at h
      exact ih j (by omega)

/-- Claim C1: refuted by evaluation — `ParseIri` is NOT total. On the ASCII
input `a:`, and on the two-code-point input `a:` followed by U+00E9 (whose
UTF-8 byte length exceeds its rune count), the parser indexes the rune slice
out of bounds (`peek` reads `runes[index+1]` whenever `index+1 != length`,
and `length` counts bytes), a Go runtime panic. -/
theorem c1_parse_panics :
    parseIri (str "a:") 100 = PROut.panik ∧
    parseIri [97, 58, 233] 100 = PROut.panik := ⟨rfl, rfl⟩

/-- Claim C4: refuted by evaluation — parsing `a:b` succeeds with scheme `a`
and empty authority, path, query and fragment (the hier-part falls through to
`ipathEmpty`, which accepts despite the unconsumed `b`), so the claimed
concatenation `Scheme ++ ":" ++ Path` is `a:`, which drops the input
character `b`. -/
theorem c4_roundtrip_fails :
    parseIri (str "a:b") 100 = PROut.ok ⟨str "a:b", str "a", [], [], [], []⟩ ∧
    str "a" ++ [58] ≠ str "a:b" := ⟨rfl, by decide⟩

/-- Claim C5: refuted by evaluation — on `a://1.1.1.1:80` the authority is
recorded as `1.1.1.1` WITHOUT the `:80`: `iauthority` invokes `port` with the
cursor still on the `:`, so `port` sees no digit, fails with "No port", and
the index is restored to the `:`. -/
theorem c5_port_never_consumed :
    parseIri (str "a://1.1.1.1:80") 100 =
      PROut.ok ⟨str "a://1.1.1.1:80", str "a", str "1.1.1.1", [], [], []⟩ := rfl

/-- Claim C6 counterexample: `2001:db8::7:1` has a single `::` and valid hex
groups totalling fewer than eight, so the claim says `ipv6Address` accepts
it; the code instead fails with the invalid-zero-collapse error as soon as a
`:` follows a post-elision group. -/
theorem c6_counterexample :
    ipv6Address ⟨str "2001:db8::7:1", 13⟩ 100 initSt =
      Res.ok (some (Err.iriErr 11 58 "Invalid zero collapse in ipv6"))
        ⟨11, [], [], [], [], []⟩ := rfl

/-- Claim C6 amended: at most one hex group may follow the `::` elision.
`2001:db8::7` (one group after the elision) succeeds; a further `:` after a
post-elision group (`2001:db8::7:1`) fails with the invalid-zero-collapse
error; a colon immediately repeated after an elision (`2001:db8:::7`) fails
with the ambiguous-double-colon error. -/
theorem c6_single_elision :
    ipv6Address ⟨str "2001:db8::7", 11⟩ 100 initSt =
      Res.ok none ⟨11, [], [], [], [], []⟩ ∧
    ipv6Address ⟨str "2001:db8::7:1", 13⟩ 100 initSt =
      Res.ok (some (Err.iriErr 11 58 "Invalid zero collapse in ipv6"))
        ⟨11, [], [], [], [], []⟩ ∧
    ipv6Address ⟨str "2001:db8:::7", 12⟩ 100 initSt =
      Res.ok (some (Err.iriErr 10 58 "Ambiguous colon"))
        ⟨10, [], [], [], [], []⟩ := ⟨rfl, rfl, rfl⟩

/-- Claim C7 counterexample: `ipathEmpty` SUCCEEDS with the cursor on the
ordinary character `b` (the claim says it must fail there) and FAILS with
`EOIError` at end of input (the claim says it must succeed there). -/
theorem c7_counterexample :
    ipathEmpty ⟨[98], 1⟩ initSt = Res.ok none initSt ∧
    ipathEmpty ⟨[], 0⟩ initSt = Res.ok (some Err.eoi) initSt := ⟨rfl, rfl⟩

/-- Claim C8: the acceptance and rejection sets are as claimed (`12` consumes
both digits, `256` and `05` are rejected), but a three-digit octet at the end
of the input does NOT consume exactly its digits: on `100` the parser
succeeds with the cursor left at index 2, i.e. ON the final digit, because
the advance guard in the three-digit arm tests `len(octetRunes) == 1`
although the length there is always 3. -/
theorem c8_three_digit_octet_not_consumed :
    decOctet ⟨str "100", 3⟩ initSt = Res.ok none ⟨2, [], [], [], [], []⟩ ∧
    decOctet ⟨str "12", 2⟩ initSt = Res.ok none ⟨2, [], [], [], [], []⟩ ∧
    decOctet ⟨str "256", 3⟩ initSt =
      Res.ok (some (Err.iriErr 2 54 "invalid octet value")) ⟨2, [], [], [], [], []⟩ ∧
    decOctet ⟨str "05", 2⟩ initSt =
      Res.ok (some (Err.iriErr 1 53 "invalid octet value")) ⟨1, [], [], [], [], []⟩ :=
  ⟨rfl, rfl, rfl, rfl⟩

/-- On `a:#/`, with the cursor on the `/` of the fragment, one iteration of the
fragment loop restores the index and continues without advancing, so the loop
is a fixed point of the state and exhausts any amount of fuel. -/
theorem ifragmentLoop_stuck : ∀ f, ifragmentLoop c2Ctx 3 f c2St = Res.fuel := by
  intro f
  induction f with
  | zero => rfl
  | succ n ih =>
    have h : ifragmentLoop c2Ctx 3 (n + 1) c2St = ifragmentLoop c2Ctx 3 n c2St := rfl
    rw [h, ih]

/-- On `a:#/` the whole of `iri` before the fragment loop evaluates, for any
positive fuel, to the stuck fragment-loop state. -/
theorem iri_c2_reduces (n : Nat) : iri c2Ctx (n + 1) initSt =
    (ifragmentLoop c2Ctx 3 (n + 1) >>= fun _ => (pure none : M (Option Err))) c2St := rfl

/-- Claim C2: refuted — `ParseIri` does NOT terminate on every input. On
`a:#/` the fragment loop's `/` branch continues without advancing the cursor,
so the parse runs forever: for every fuel value the embedded parser exhausts
its fuel. (The query loop's iprivate branch likewise continues without
advancing.) -/
theorem c2_nontermination : ∀ f, parseIri (str "a:#/") f = PROut.fuel := by
  intro f
  cases f with
  | zero => rfl
  | succ n =>
    have h2 : iri c2Ctx (n + 1) initSt = Res.fuel := by
      rw [iri_c2_reduces n, bind_apply, ifragmentLoop_stuck (n + 1)]
    show (match iri c2Ctx (n + 1) initSt with
      | Res.ok (some e) _ => PROut.err e
      | Res.ok none s =>
        PROut.ok ⟨[97, 58, 35, 47], s.scheme, s.authority, s.path, s.query, s.fragment⟩
      | Res.panik => PROut.panik
      | Res.fuel => PROut.fuel) = PROut.fuel
    rw [h2]

/-- Claim C3: refuted — for EVERY code point in the ucschar ranges,
`iunreserved` (run on a one-rune input with the cursor on that rune) returns
the IriError "Invalid iunreserved value" and does not advance: when the
inner `ucschar` test succeeds the Go code falls through to
`return newIriError(...)` instead of consuming the character. -/
theorem c3_ucschar_rejected (r : Nat) (h : isUcsChar r = true) :
    iunreserved ⟨[r], utf8Len r⟩ initSt =
      Res.ok (some (Err.iriErr 0 r "Invalid iunreserved value")) initSt := by
  have hr : 160 ≤ r := by
    simp only [isUcsChar, Bool.or_eq_true, Bool.and_eq_true, decide_eq_true_eq] at h
    omega
  have h0 : ¬ utf8Len r ≤ 0 := by
    unfold utf8Len
    repeat' split
    all_goals omega
  have hcur : current ⟨[r], utf8Len r⟩ ⟨0, [], [], [], [], []⟩ =
      Res.ok (r, false) ⟨0, [], [], [], [], []⟩ := by
    unfold current
    rw [if_neg (by simpa using h0)]
    rfl
  have hcls : (isAlpha r || isDigit r || r == 45 || r == 46 || r == 95 || r == 126) = false := by
    simp only [isAlpha, isDigit, Bool.or_eq_false_iff, Bool.and_eq_false_iff,
      decide_eq_false_iff_not, beq_eq_false_iff_ne, ne_eq, not_le]
    omega
  show iunreserved ⟨[r], utf8Len r⟩ ⟨0, [], [], [], [], []⟩ =
      Res.ok (some (Err.iriErr 0 r "Invalid iunreserved value")) ⟨0, [], [], [], [], []⟩
  unfold iunreserved ucschar newIriError
  simp only [bind_apply, pure_apply, hcur]
  rw [hcls]
  simp [bind_apply, pure_apply, hcur, h, getIndex]

/-- Claim C3 witness: the concrete ucschar code point U+00A0 is rejected. -/
theorem c3_witness :
    isUcsChar 160 = true ∧
    iunreserved ⟨[160], utf8Len 160⟩ initSt =
      Res.ok (some (Err.iriErr 0 160 "Invalid iunreserved value")) initSt :=
  ⟨by decide, c3_ucschar_rejected 160 (by decide)⟩

/-- Claim C9 counterexample: on the invalid-UTF-8 byte string `a:` + 0xFF,
`ParseIri` succeeds with `Value` = `a:` + U+FFFD (three runes, re-encoding to
five bytes), but re-parsing that `Value` panics (the replacement rune makes
the byte length exceed the rune count, and `peek` then indexes the rune slice
out of bounds), so it does not yield identical fields. -/
theorem c9_counterexample :
    parseIriBytes c9Bytes 100 = PROut.ok ⟨c9Runes, [97], [], [], [], []⟩ ∧
    utf8Dec c9Bytes = c9Runes ∧
    parseIriBytes (utf8Enc c9Runes) 100 = PROut.panik := ⟨rfl, rfl, rfl⟩

/-- Claim C7 amended: `ipathEmpty` succeeds exactly when the current position
holds a character (which includes `?` and `#` but also every other
character), and fails with `EOIError` exactly when the cursor is at or past
the length bound. The hypothesis excludes the panicking states where the
byte length exceeds the rune count. -/
theorem c7_empty_path_behaviour (ctx : Ctx) (s : St)
    (h : ctx.length ≤ s.index ∨ s.index < ctx.runes.length) :
    ipathEmpty ctx s =
      Res.ok (if ctx.length ≤ s.index then some Err.eoi else none) s := by
  by_cases he : ctx.length ≤ s.index
  · have hcur : current ctx s = Res.ok (0, true) s := by
      unfold current
      rw [if_pos he]
    unfold ipathEmpty
    rw [bind_apply, hcur, if_pos he]
    rfl
  · have hlt : s.index < ctx.runes.length := h.resolve_left he
    obtain ⟨c, hc⟩ := runeAt_some_of_lt ctx.runes s.index hlt
    have hcur : current ctx s = Res.ok (c, false) s := by
      unfold current
      rw [if_neg he, hc]
    unfold ipathEmpty
    rw [bind_apply, hcur, if_neg he]
    rfl

/-- Claim C7 witness: at a `?` the (amended) behaviour is success. -/
theorem c7_witness : ipathEmpty ⟨[63], 1⟩ initSt = Res.ok none initSt :=
  c7_empty_path_behaviour ⟨[63], 1⟩ initSt (Or.inr (by decide))

/-- Claim C9 amended: for inputs given as code-point sequences (i.e. valid
UTF-8 strings, where `string(p.runes)` re-encodes to exactly the input),
the `Value` of a successful result IS the input, so re-parsing it yields the
identical result. -/
theorem c9_valid_utf8_idempotent (rs : List Nat) (f : Nat) (r : IRI)
    (h : parseIri rs f = PROut.ok r) :
    r.value = rs ∧ parseIri r.value f = PROut.ok r := by
  have h2 := h
  have hv : r.value = rs := by
    unfold parseIri parseWith at h
    split at h
    · exact absurd h (by simp)
    · rename_i s heq
      injection h with h3
      rw [← h3]
    · exact absurd h (by simp)
    · exact absurd h (by simp)
  exact ⟨hv, by rw [hv]; exact h2⟩

/-- Claim C9 witness: re-parsing the value of the parse of `a:b` (a valid
UTF-8 input) reproduces the result. -/
theorem c9_witness :
    (⟨str "a:b", str "a", [], [], [], []⟩ : IRI).value = str "a:b" ∧
    parseIri (⟨str "a:b", str "a", [], [], [], []⟩ : IRI).value 100 =
      PROut.ok ⟨str "a:b", str "a", [], [], [], []⟩ :=
  c9_valid_utf8_idempotent (str "a:b") 100 _ rfl

theorem current_atEnd (ctx : Ctx) (s : St) (h : ctx.length ≤ s.index) :
    current ctx s = Res.ok (0, true) s := by
  unfold current
  rw [if_pos h]

theorem current_of_runeAt (ctx : Ctx) (s : St) (c : Nat) (h1 : ¬ ctx.length ≤ s.index)
    (h2 : runeAt ctx.runes s.index = some c) :
    current ctx s = Res.ok (c, false) s := by
  unfold current
  rw [if_neg h1, h2]

theorem peek_of_runeAt (ctx : Ctx) (s : St) (c : Nat) (h1 : ¬ s.index + 1 = ctx.length)
    (h2 : runeAt ctx.runes (s.index + 1) = some c) :
    peek ctx s = Res.ok (c, false) s := by
  unfold peek
  rw [if_neg h1, h2]

theorem next_of_lt (ctx : Ctx) (s : St) (h : s.index < ctx.length + 1) :
    next ctx s = Res.ok true { s with index := s.index + 1 } := by
  unfold next
  rw [if_pos h]

theorem st_eta (s : St) :
    St.mk s.index s.scheme s.authority s.path s.query s.fragment = s := rfl

theorem iunreserved_atEnd (ctx : Ctx) (s : St) (h : ctx.length ≤ s.index) :
    iunreserved ctx s =
      Res.ok (some (Err.iriErr s.index 0 "Invalid ucschar value")) s := by
  unfold iunreserved ucschar newIriError
  simp [bind_apply, pure_apply, current_atEnd ctx s h, getIndex, isAlpha, isDigit,
    isUcsChar]

theorem pctEncoded_atEnd (ctx : Ctx) (s : St) (h : ctx.length ≤ s.index) :
    pctEncoded ctx s =
      Res.ok (some (Err.iriErr s.index 0 "invalid pct encoding")) s := by
  unfold pctEncoded newIriError
  simp [bind_apply, pure_apply, current_atEnd ctx s h, getIndex]

theorem iuserInfoLoop_atEnd (ctx : Ctx) (s : St) (m : Nat) (h : ctx.length ≤ s.index) :
    iuserInfoLoop ctx (m + 1) s = Res.ok none s := by
  show iuserInfoLoopF ctx (iuserInfoLoop ctx m) s = Res.ok none s
  unfold iuserInfoLoopF
  simp [bind_apply, pure_apply, getIndex, setIndex, st_eta,
    iunreserved_atEnd ctx s h, pctEncoded_atEnd ctx s h, current_atEnd ctx s h,
    isSubDelim]

theorem ipLiteral_atEnd (ctx : Ctx) (s : St) (f : Nat) (h : ctx.length ≤ s.index) :
    ipLiteral ctx f s =
      Res.ok (some (Err.iriErr s.index 0 "Missing starting bracket ip literal")) s := by
  unfold ipLiteral newIriError
  simp [bind_apply, pure_apply, current_atEnd ctx s h, getIndex]

theorem decOctet_atEnd (ctx : Ctx) (s : St) (h : ctx.length ≤ s.index) :
    decOctet ctx s =
      Res.ok (some (Err.iriErr s.index 0 "invalid decimal octet")) s := by
  unfold decOctet newIriError
  simp [bind_apply, pure_apply, current_atEnd ctx s h, getIndex, isDigit]

theorem ipv4Address_atEnd (ctx : Ctx) (s : St) (h : ctx.length ≤ s.index) :
    ipv4Address ctx s =
      Res.ok (some (Err.iriErr s.index 0 "invalid decimal octet")) s := by
  show ipv4LoopF ctx 3 (ipv4Loop ctx 3) s = _
  unfold ipv4LoopF
  simp only [bind_apply, pure_apply, decOctet_atEnd ctx s h]

theorem iregNameLoop_atEnd (ctx : Ctx) (s : St) (m : Nat) (h : ctx.length ≤ s.index) :
    iregNameLoop ctx (m + 1) s = Res.ok () s := by
  show iregNameLoopF ctx (iregNameLoop ctx m) s = Res.ok () s
  unfold iregNameLoopF
  simp [bind_apply, pure_apply, getIndex, setIndex, st_eta,
    iunreserved_atEnd ctx s h, pctEncoded_atEnd ctx s h, current_atEnd ctx s h,
    isSubDelim]

theorem ihost_atEnd (ctx : Ctx) (s : St) (m : Nat) (h : ctx.length ≤ s.index) :
    ihost ctx (m + 1) s = Res.ok () s := by
  unfold ihost iregName
  simp [bind_apply, pure_apply, getIndex, setIndex, st_eta,
    ipLiteral_atEnd ctx s (m + 1) h, ipv4Address_atEnd ctx s h,
    iregNameLoop_atEnd ctx s m h]

theorem iauthority_atEnd (ctx : Ctx) (s : St) (m : Nat) (h : ctx.length ≤ s.index)
    (h2 : s.index ≤ ctx.runes.length) :
    iauthority ctx (m + 1) s = Res.ok none { s with authority := [] } := by
  unfold iauthority iuserInfo sliceRunes setAuthority
  simp [bind_apply, pure_apply, getIndex, setIndex, st_eta,
    iuserInfoLoop_atEnd ctx s m h, current_atEnd ctx s h,
    ihost_atEnd ctx s m h, h2]

theorem ipathAbEmptyLoop_atEnd (ctx : Ctx) (s : St) (m : Nat) (h : ctx.length ≤ s.index) :
    ipathAbEmptyLoop ctx (m + 1) s = Res.ok none s := by
  show ipathAbEmptyLoopF ctx m (ipathAbEmptyLoop ctx m) s = Res.ok none s
  unfold ipathAbEmptyLoopF
  simp [bind_apply, pure_apply, current_atEnd ctx s h]

theorem ipathAbEmpty_atEnd (ctx : Ctx) (s : St) (m : Nat) (h : ctx.length ≤ s.index)
    (h2 : s.index ≤ ctx.runes.length) :
    ipathAbEmpty ctx (m + 1) s = Res.ok none { s with path := [] } := by
  unfold ipathAbEmpty sliceRunes setPath
  simp only [bind_apply, pure_apply, getIndex, st_eta,
    ipathAbEmptyLoop_atEnd ctx s m h]
  rw [if_pos ⟨le_refl s.index, h2⟩]
  simp

theorem drop_eq_cons_of_lt (l : List Nat) (i : Nat) (h : i < l.length) :
    ∃ c, runeAt l i = some c ∧ l.drop i = c :: l.drop (i + 1) := by
  induction l generalizing i with
  | nil => simp at h
  | cons x xs ih =>
    cases i with
    | zero => exact ⟨x, rfl, rfl⟩
    | succ j =>
      simp only [List.length_cons] at h
      obtain ⟨c, h1, h2⟩ := ih j (by omega)
      exact ⟨c, h1, h2⟩

/-- The scheme loop consumes exactly the scheme characters remaining in `s`
and stops on the `:` that follows, recording the accumulated scheme. -/
theorem schemaLoop_run (s : List Nat) :
    ∀ (f i : Nat) (acc sc au pa qu fr : List Nat),
    (∀ x ∈ s.drop i, isSchemeChar x = true) → i ≤ s.length → s.length - i < f →
    schemaLoop ⟨s ++ [58, 47, 47], s.length + 3⟩ f acc ⟨i, sc, au, pa, qu, fr⟩ =
      Res.ok none ⟨s.length, acc ++ s.drop i, au, pa, qu, fr⟩ := by
  intro f
  induction f with
  | zero =>
    intro i acc sc au pa qu fr hall hle hf
    omega
  | succ m ih =>
    intro i acc sc au pa qu fr hall hle hf
    by_cases hi : i < s.length
    · obtain ⟨c, hrA, hdrop⟩ := drop_eq_cons_of_lt s i hi
      have hrA2 : runeAt (s ++ [58, 47, 47]) i = some c := by
        rw [runeAt_append_left s [58, 47, 47] i hi]
        exact hrA
      have hcur : current ⟨s ++ [58, 47, 47], s.length + 3⟩ ⟨i, sc, au, pa, qu, fr⟩ =
          Res.ok (c, false) ⟨i, sc, au, pa, qu, fr⟩ :=
        current_of_runeAt _ _ c (by show ¬ s.length + 3 ≤ i; omega) hrA2
      have hsc : isSchemeChar c = true := hall c (by rw [hdrop]; exact List.mem_cons_self c _)
      have hnx : next ⟨s ++ [58, 47, 47], s.length + 3⟩ ⟨i, sc, au, pa, qu, fr⟩ =
          Res.ok true ⟨i + 1, sc, au, pa, qu, fr⟩ :=
        next_of_lt _ _ (by show i < s.length + 3 + 1; omega)
      have hrec := ih (i + 1) (acc ++ [c]) sc au pa qu fr
        (by intro x hx; exact hall x (by rw [hdrop]; exact List.mem_cons_of_mem c hx))
        (by omega) (by omega)
      show schemaLoopF ⟨s ++ [58, 47, 47], s.length + 3⟩
        (schemaLoop ⟨s ++ [58, 47, 47], s.length + 3⟩ m) acc ⟨i, sc, au, pa, qu, fr⟩ = _
      unfold schemaLoopF
      simp only [bind_apply, pure_apply, hcur, hsc, hnx, if_true, Bool.not_true,
        Bool.false_eq_true, if_false, hrec]
      rw [hdrop]
      simp [List.append_assoc]
    · have hieq : i = s.length := by omega
      subst hieq
      have hcur : current ⟨s ++ [58, 47, 47], s.length + 3⟩ ⟨s.length, sc, au, pa, qu, fr⟩ =
          Res.ok (58, false) ⟨s.length, sc, au, pa, qu, fr⟩ :=
        current_of_runeAt _ _ 58 (by show ¬ s.length + 3 ≤ s.length; omega)
          (by show runeAt (s ++ [58, 47, 47]) s.length = some 58
              rw [runeAt_append_right s [58, 47, 47] s.length (le_refl s.length),
                Nat.sub_self]
              rfl)
      show schemaLoopF ⟨s ++ [58, 47, 47], s.length + 3⟩
        (schemaLoop ⟨s ++ [58, 47, 47], s.length + 3⟩ m) acc ⟨s.length, sc, au, pa, qu, fr⟩ = _
      unfold schemaLoopF setScheme
      have hns : isSchemeChar 58 = false := by decide
      simp [bind_apply, pure_apply, hcur, hns]

/-- With the cursor on the first of two slashes that end the input (positions
`n+1`, `n+2` of a buffer whose byte length is `n+3`), the hier-part takes the
authority branch, the authority and path both come up empty, and the cursor
ends at the length bound. -/
theorem ihierPart_slashes (w : List Nat) (n m : Nat) (sc : List Nat)
    (hw1 : runeAt w (n + 1) = some 47) (hw2 : runeAt w (n + 2) = some 47)
    (hlen : n + 3 ≤ w.length) :
    ihierPart ⟨w, n + 3⟩ (m + 1) ⟨n + 1, sc, [], [], [], []⟩ =
      Res.ok none ⟨n + 3, sc, [], [], [], []⟩ := by
  have hcur : current ⟨w, n + 3⟩ ⟨n + 1, sc, [], [], [], []⟩ =
      Res.ok (47, false) ⟨n + 1, sc, [], [], [], []⟩ :=
    current_of_runeAt _ _ 47 (by show ¬ n + 3 ≤ n + 1; omega) hw1
  have hpk : peek ⟨w, n + 3⟩ ⟨n + 1, sc, [], [], [], []⟩ =
      Res.ok (47, false) ⟨n + 1, sc, [], [], [], []⟩ :=
    peek_of_runeAt _ _ 47 (by show ¬ n + 1 + 1 = n + 3; omega) hw2
  have hnx1 : next ⟨w, n + 3⟩ ⟨n + 1, sc, [], [], [], []⟩ =
      Res.ok true ⟨n + 2, sc, [], [], [], []⟩ :=
    next_of_lt _ _ (by show n + 1 < n + 3 + 1; omega)
  have hnx2 : next ⟨w, n + 3⟩ ⟨n + 2, sc, [], [], [], []⟩ =
      Res.ok true ⟨n + 3, sc, [], [], [], []⟩ :=
    next_of_lt _ _ (by show n + 2 < n + 3 + 1; omega)
  have hauth : iauthority ⟨w, n + 3⟩ (m + 1) ⟨n + 3, sc, [], [], [], []⟩ =
      Res.ok none ⟨n + 3, sc, [], [], [], []⟩ :=
    iauthority_atEnd ⟨w, n + 3⟩ ⟨n + 3, sc, [], [], [], []⟩ m
      (by show n + 3 ≤ n + 3; omega) (by show n + 3 ≤ w.length; omega)
  have hpath : ipathAbEmpty ⟨w, n + 3⟩ (m + 1) ⟨n + 3, sc, [], [], [], []⟩ =
      Res.ok none ⟨n + 3, sc, [], [], [], []⟩ :=
    ipathAbEmpty_atEnd ⟨w, n + 3⟩ ⟨n + 3, sc, [], [], [], []⟩ m
      (by show n + 3 ≤ n + 3; omega) (by show n + 3 ≤ w.length; omega)
  unfold ihierPart
  simp only [bind_apply, pure_apply, getIndex, hcur, hpk, hnx1, hnx2, hauth, hpath,
    Bool.not_false, Bool.true_and, beq_self_eq_true, Bool.and_self, if_true,
    Bool.not_true, Bool.false_eq_true, if_false]

theorem isSchemeChar_lt_128 (r : Nat) (h : isSchemeChar r = true) : r < 128 := by
  simp only [isSchemeChar, isAlpha, isDigit, Bool.or_eq_true, Bool.and_eq_true,
    decide_eq_true_eq, beq_iff_eq] at h
  omega

theorem isAlpha_lt_128 (r : Nat) (h : isAlpha r = true) : r < 128 := by
  simp only [isAlpha, Bool.or_eq_true, Bool.and_eq_true, decide_eq_true_eq] at h
  omega

theorem utf8Length_ascii (l : List Nat) (h : ∀ x ∈ l, x < 128) :
    utf8Length l = l.length := by
  induction l with
  | nil => rfl
  | cons x xs ih =>
    have hx : x < 128 := h x (List.mem_cons_self x xs)
    have hxs : ∀ y ∈ xs, y < 128 := fun y hy => h y (List.mem_cons_of_mem x hy)
    show utf8Len x + utf8Length xs = xs.length + 1
    rw [ih hxs]
    unfold utf8Len
    rw [if_pos (by omega)]
    omega

/-- Claim C10: confirmed. `ihost` has no failure channel (its embedded type is
`M Unit`): the registered-name fallback accepts an empty run. Consequently,
for every valid scheme (an alpha followed by scheme characters) the input
`scheme://` parses successfully with empty Authority and empty Path. -/
theorem c10_empty_host_accepted (c : Nat) (t : List Nat) (f : Nat)
    (hc : isAlpha c = true) (ht : ∀ x ∈ t, isSchemeChar x = true)
    (hf : t.length + 2 ≤ f) :
    parseIri ((c :: t) ++ [58, 47, 47]) f =
      PROut.ok ⟨(c :: t) ++ [58, 47, 47], c :: t, [], [], [], []⟩ := by
  obtain ⟨m, rfl⟩ : ∃ m, f = m + 1 := ⟨f - 1, by omega⟩
  have hall : ∀ x ∈ (c :: t) ++ [58, 47, 47], x < 128 := by
    intro x hx
    rcases List.mem_append.mp hx with hx1 | hx2
    · rcases List.mem_cons.mp hx1 with hx3 | hx4
      · subst hx3; exact isAlpha_lt_128 x hc
      · exact isSchemeChar_lt_128 x (ht x hx4)
    · simp only [List.mem_cons, List.not_mem_nil, or_false] at hx2
      rcases hx2 with h1 | h1 | h1 <;> omega
  have hL : utf8Length ((c :: t) ++ [58, 47, 47]) = (c :: t).length + 3 := by
    rw [utf8Length_ascii _ hall]
    simp
  have hcur0 : current ⟨(c :: t) ++ [58, 47, 47], (c :: t).length + 3⟩ initSt =
      Res.ok (c, false) initSt :=
    current_of_runeAt _ _ c (by show ¬ (c :: t).length + 3 ≤ 0; omega) rfl
  have hnx0 : next ⟨(c :: t) ++ [58, 47, 47], (c :: t).length + 3⟩ initSt =
      Res.ok true ⟨1, [], [], [], [], []⟩ :=
    next_of_lt _ _ (by show 0 < (c :: t).length + 3 + 1; omega)
  have hsl : schemaLoop ⟨(c :: t) ++ [58, 47, 47], (c :: t).length + 3⟩ (m + 1) [c]
        ⟨1, [], [], [], [], []⟩ =
      Res.ok none ⟨(c :: t).length, c :: t, [], [], [], []⟩ :=
    schemaLoop_run (c :: t) (m + 1) 1 [c] [] [] [] [] []
      (by intro x hx; exact ht x hx) (by simp only [List.length_cons]; omega)
      (by simp only [List.length_cons]; omega)
  have hcur1 : current ⟨(c :: t) ++ [58, 47, 47], (c :: t).length + 3⟩
        ⟨(c :: t).length, c :: t, [], [], [], []⟩ =
      Res.ok (58, false) ⟨(c :: t).length, c :: t, [], [], [], []⟩ :=
    current_of_runeAt _ _ 58 (by show ¬ (c :: t).length + 3 ≤ (c :: t).length; omega)
      (by rw [runeAt_append_right _ _ _ (le_refl _), Nat.sub_self]; rfl)
  have hnx1 : next ⟨(c :: t) ++ [58, 47, 47], (c :: t).length + 3⟩
        ⟨(c :: t).length, c :: t, [], [], [], []⟩ =
      Res.ok true ⟨(c :: t).length + 1, c :: t, [], [], [], []⟩ :=
    next_of_lt _ _ (by show (c :: t).length < (c :: t).length + 3 + 1; omega)
  have hhier : ihierPart ⟨(c :: t) ++ [58, 47, 47], (c :: t).length + 3⟩ (m + 1)
        ⟨(c :: t).length + 1, c :: t, [], [], [], []⟩ =
      Res.ok none ⟨(c :: t).length + 3, c :: t, [], [], [], []⟩ :=
    ihierPart_slashes ((c :: t) ++ [58, 47, 47]) (c :: t).length m (c :: t)
      (by rw [runeAt_append_right _ _ _ (by omega),
            show (c :: t).length + 1 - (c :: t).length = 1 from by omega]
          rfl)
      (by rw [runeAt_append_right _ _ _ (by omega),
            show (c :: t).length + 2 - (c :: t).length = 2 from by omega]
          rfl)
      (by simp)
  have hcur2 : current ⟨(c :: t) ++ [58, 47, 47], (c :: t).length + 3⟩
        ⟨(c :: t).length + 3, c :: t, [], [], [], []⟩ =
      Res.ok (0, true) ⟨(c :: t).length + 3, c :: t, [], [], [], []⟩ :=
    current_atEnd _ _ (by show (c :: t).length + 3 ≤ (c :: t).length + 3; omega)
  have hiri : iri ⟨(c :: t) ++ [58, 47, 47], (c :: t).length + 3⟩ (m + 1) initSt =
      Res.ok none ⟨(c :: t).length + 3, c :: t, [], [], [], []⟩ := by
    unfold iri schema
    simp only [bind_apply, pure_apply, hcur0, hc, hnx0, hsl, hcur1, hnx1, hhier, hcur2,
      Bool.not_true, Bool.false_eq_true, if_false, Bool.not_false, if_true,
      bne_self_eq_false, Nat.reduceBEq]
  unfold parseIri
  rw [hL]
  unfold parseWith
  rw [hiri]

/-- Claim C10 witness: `http://` parses with empty Authority and empty Path. -/
theorem c10_witness :
    parseIri ((104 :: [116, 116, 112]) ++ [58, 47, 47]) 10 =
      PROut.ok ⟨(104 :: [116, 116, 112]) ++ [58, 47, 47],
        104 :: [116, 116, 112], [], [], [], []⟩ :=
  c10_empty_host_accepted 104 [116, 116, 112] 10 (by decide) (by decide) (by decide)

end OdinIri
